import Mathlib

/-!
Shallow embedding of the Unix-domain socket address codec and connection
layer from `src/sys/windows/ext/net.rs` (a Windows port of the std unix
socket module).  Paths are modelled by their UTF-8 byte sequences
(`List Nat`, each entry a byte value); a Rust `&Path` whose `to_str()`
fails is modelled as `none`.  Machine integers: `libc::c_int` lengths are
`Int`, `usize` arithmetic is made explicit where wrap-around matters.
Operations that can panic are modelled with `Option`, `none` standing for
a panic.
-/

namespace RsStdNet

/-- `AF_UNIX` from `winapi::shared::ws2def`. -/
def AF_UNIX : Nat := 1

/-- `SO_SNDTIMEO` from `winapi::shared::ws2def`. -/
def SO_SNDTIMEO : Nat := 0x1005

/-- `SO_RCVTIMEO` from `winapi::shared::ws2def`. -/
def SO_RCVTIMEO : Nat := 0x1006

/-- The `netc::sockaddr_un` structure: a `u16` family tag followed by
`[CHAR; 108]`.  `sun_path` is a list of byte values; in the source it
always has exactly 108 entries, which theorems carry as a hypothesis
where it matters. -/
structure netc.sockaddr_un where
  sun_family : Nat
  sun_path : List Nat
  deriving DecidableEq

/-- Capacity of the `sun_path` field: `addr.sun_path.len()` in the source. -/
def sun_path_len : Nat := 108

/-- `sun_path_offset()`: byte offset of `sun_path` inside `sockaddr_un`
(the `u16` family tag occupies bytes 0..2, and `[i8; 108]` has alignment
1, so the offset is 2). -/
def sun_path_offset : Nat := 2

/-- `mem::size_of::<netc::sockaddr_un>()` = 2 + 108. -/
def sizeof_sockaddr_un : Nat := 110

/-- Error kinds this layer distinguishes; every other OS error is `Other`. -/
inductive ErrorKind
  | InvalidInput
  | Other
  deriving DecidableEq

/-- The encoder `fn sockaddr_un(path: &Path) -> io::Result<(netc::sockaddr_un, c_int)>`.
The argument is `path.to_str()` seen as bytes (`none` when the path holds
invalid characters).  The buffer is zeroed, the family tag set, and the
path bytes copied left-justified; the declared length is
`sun_path_offset() + bytes.len()`, plus one unless the path is empty or
starts with a zero byte (mirroring the `match bytes.get(0)` in the
source). -/
def sockaddr_un (pathBytes : Option (List Nat)) :
    Except ErrorKind (netc.sockaddr_un × Int) :=
  match pathBytes with
  | none => Except.error ErrorKind.InvalidInput
  | some bytes =>
    if bytes.contains 0 then
      Except.error ErrorKind.InvalidInput
    else if sun_path_len ≤ bytes.length then
      Except.error ErrorKind.InvalidInput
    else
      let sun_path := bytes ++ List.replicate (sun_path_len - bytes.length) 0
      let base := sun_path_offset + bytes.length
      let len : Nat :=
        match bytes.head? with
        | some 0 => base
        | none => base
        | some _ => base + 1
      Except.ok (⟨AF_UNIX, sun_path⟩, (len : Int))

/-- The decoded address value: a raw buffer plus the declared length
(`libc::c_int`). -/
structure SocketAddr where
  addr : netc.sockaddr_un
  len : Int
  deriving DecidableEq

/-- `SocketAddr::from_parts`.  A zero declared length is canonicalised to
`sun_path_offset` without looking at the buffer; otherwise the family tag
must match `AF_UNIX`. -/
def SocketAddr.from_parts (addr : netc.sockaddr_un) (len : Int) :
    Except ErrorKind SocketAddr :=
  if len = 0 then
    Except.ok ⟨addr, (sun_path_offset : Int)⟩
  else if addr.sun_family ≠ AF_UNIX then
    Except.error ErrorKind.InvalidInput
  else
    Except.ok ⟨addr, len⟩

/-- `SocketAddr::new` zeroes a buffer, initialises the in/out length to
`size_of::<sockaddr_un>()`, lets the native call `f` fill both, and hands
the result to `from_parts`.  The native call is external, so its output
`(osAddr, osLen)` is the argument here. -/
def SocketAddr.new (osAddr : netc.sockaddr_un) (osLen : Int) :
    Except ErrorKind SocketAddr :=
  SocketAddr.from_parts osAddr osLen

/-- Result of classifying an address.  `Pathname` carries the UTF-8 bytes
of the path. -/
inductive AddressKind
  | Unnamed
  | Pathname (bytes : List Nat)
  | Abstract (bytes : List Nat)
  deriving DecidableEq

/-- `cfg!(any(target_os = "linux", target_os = "android"))`: false, the
target is Windows. -/
def cfg_target_linux_or_android : Bool := false

/-- Continuation byte test for UTF-8 (0x80..=0xBF). -/
def isCont (b : Nat) : Bool :=
  0x80 ≤ b && b ≤ 0xBF

/-- UTF-8 validity of a byte sequence, per RFC 3629 (what
`str::from_utf8` / `CStr::to_str` accept): no overlong forms, no
surrogates, no code points above U+10FFFF. -/
def isValidUtf8 : List Nat → Bool
  | [] => true
  | b :: rest =>
    if b ≤ 0x7F then isValidUtf8 rest
    else
      match rest with
      | [] => false
      | c1 :: r1 =>
        if 0xC2 ≤ b && b ≤ 0xDF then isCont c1 && isValidUtf8 r1
        else
          match r1 with
          | [] => false
          | c2 :: r2 =>
            if b == 0xE0 then
              (0xA0 ≤ c1 && c1 ≤ 0xBF) && isCont c2 && isValidUtf8 r2
            else if (0xE1 ≤ b && b ≤ 0xEC) || b == 0xEE || b == 0xEF then
              isCont c1 && isCont c2 && isValidUtf8 r2
            else if b == 0xED then
              (0x80 ≤ c1 && c1 ≤ 0x9F) && isCont c2 && isValidUtf8 r2
            else
              match r2 with
              | [] => false
              | c3 :: r3 =>
                if b == 0xF0 then
                  (0x90 ≤ c1 && c1 ≤ 0xBF) && isCont c2 && isCont c3 && isValidUtf8 r3
                else if 0xF1 ≤ b && b ≤ 0xF3 then
                  isCont c1 && isCont c2 && isCont c3 && isValidUtf8 r3
                else if b == 0xF4 then
                  (0x80 ≤ c1 && c1 ≤ 0x8F) && isCont c2 && isCont c3 && isValidUtf8 r3
                else false

/-- `CStr::from_bytes_with_nul_unchecked(slice).to_str()`: in the libstd
of this era `to_bytes` returns all bytes but the final one (expected to
be the nul terminator) and `to_str` checks that content for UTF-8
validity, returning `Err` otherwise. -/
def cstrToStr (slice : List Nat) : Option (List Nat) :=
  let content := slice.dropLast
  if isValidUtf8 content then some content else none

/-- The cast `self.len as usize` on a `c_int`: wraps modulo 2^64. -/
def intAsUsize (i : Int) : Nat :=
  (i % (2 ^ 64 : Int)).toNat

/-- `SocketAddr::address`.  `none` models a panic: the `usize`
subtraction underflow when the declared length is below the path-field
offset (debug assertions), an out-of-bounds slice `&path[..len]`, or the
`to_str().unwrap()` on path bytes that are not valid UTF-8. -/
def SocketAddr.address (s : SocketAddr) : Option AddressKind :=
  let lenUsize := intAsUsize s.len
  if lenUsize < sun_path_offset then
    none
  else
    let len := lenUsize - sun_path_offset
    let path := s.addr.sun_path
    if len == 0 || (!cfg_target_linux_or_android && path.headD 0 == 0) then
      some AddressKind.Unnamed
    else if path.headD 0 == 0 then
      if len ≤ path.length then
        some (AddressKind.Abstract ((path.take len).drop 1))
      else none
    else if len ≤ path.length then
      match cstrToStr (path.take len) with
      | some content => some (AddressKind.Pathname content)
      | none => none
    else none

/-- `SocketAddr::is_unnamed`, through `address` (so it inherits its
panics). -/
def SocketAddr.is_unnamed (s : SocketAddr) : Option Bool :=
  s.address.map fun k =>
    match k with
    | AddressKind.Unnamed => true
    | _ => false

/-- `SocketAddr::as_pathname`, through `address`.  The outer `Option` is
the panic channel; the inner one is the `Option<&Path>` return value. -/
def SocketAddr.as_pathname (s : SocketAddr) : Option (Option (List Nat)) :=
  s.address.map fun k =>
    match k with
    | AddressKind.Pathname p => some p
    | _ => none

/-- A connected stream: owns one opaque native handle. -/
structure UnixStream where
  handle : Nat
  deriving DecidableEq

/-- `UnixListener::accept`: the external `Socket::accept` call either
fails or yields a raw handle together with the address buffer and length
it wrote; its outcome is the argument.  The address goes through
`SocketAddr::from_parts`. -/
def UnixListener.accept
    (osResult : Except ErrorKind (Nat × netc.sockaddr_un × Int)) :
    Except ErrorKind (UnixStream × SocketAddr) :=
  match osResult with
  | Except.error e => Except.error e
  | Except.ok (sock, storage, len) =>
    match SocketAddr.from_parts storage len with
    | Except.error e => Except.error e
    | Except.ok addr => Except.ok (⟨sock⟩, addr)

/-- `usize::max_value()`. -/
def usize_max : Nat := 2 ^ 64 - 1

/-- `Incoming::next`: always `Some(self.listener.accept().map(|s| s.0))`.
The borrowed listener's successive external accept outcomes are modelled
as the sequence `accepts`, and the iterator's position in that sequence
as `step`; `next` consumes one outcome and advances. -/
def Incoming.next
    (accepts : Nat → Except ErrorKind (Nat × netc.sockaddr_un × Int))
    (step : Nat) :
    Option (Except ErrorKind UnixStream) × Nat :=
  (some ((UnixListener.accept (accepts step)).map Prod.fst), step + 1)

/-- `Incoming::size_hint`: `(usize::max_value(), None)`. -/
def Incoming.size_hint : Nat × Option Nat :=
  (usize_max, none)

/-- A `std::time::Duration`: seconds and subsecond nanoseconds. -/
structure Duration where
  secs : Nat
  nanos : Nat
  deriving DecidableEq

/-- Modelled from the spec: `Socket::set_timeout` lives in the `sys::net`
module, which `lib.rs` declares but which is absent from the sources
here.  Per the spec, passing a timeout of exactly zero duration must fail
with `InvalidInput`, passing `None` means block indefinitely and
succeeds, and any nonzero duration is accepted. -/
def Socket.set_timeout (timeout : Option Duration) (_kind : Nat) :
    Except ErrorKind Unit :=
  match timeout with
  | none => Except.ok ()
  | some d =>
    if d.secs = 0 ∧ d.nanos = 0 then Except.error ErrorKind.InvalidInput
    else Except.ok ()

/-- `UnixStream::set_read_timeout`: delegates with `SO_RCVTIMEO`. -/
def UnixStream.set_read_timeout (timeout : Option Duration) :
    Except ErrorKind Unit :=
  Socket.set_timeout timeout SO_RCVTIMEO

/-- `UnixStream::set_write_timeout`: delegates with `SO_SNDTIMEO`. -/
def UnixStream.set_write_timeout (timeout : Option Duration) :
    Except ErrorKind Unit :=
  Socket.set_timeout timeout SO_SNDTIMEO

end RsStdNet

namespace RsStdNet

/-- For a `c_int` value in `[0, 2^64)`, the cast to `usize` is the
identity on values. -/
theorem intAsUsize_of_nonneg (i : Int) (h0 : 0 ≤ i) (h1 : i < 2 ^ 64) :
    intAsUsize i = i.toNat := by
  unfold intAsUsize
  rw [Int.emod_eq_of_lt h0 h1]

/-- C4: decoding with a declared length of zero succeeds and yields the
canonical unnamed address for every buffer: the family tag is never
inspected, `is_unnamed` is true and `as_pathname` is `None` on the
result. -/
theorem C4_zero_length_unnamed (a : netc.sockaddr_un) :
    SocketAddr.from_parts a 0 = Except.ok ⟨a, (sun_path_offset : Int)⟩ ∧
    SocketAddr.is_unnamed ⟨a, (sun_path_offset : Int)⟩ = some true ∧
    SocketAddr.as_pathname ⟨a, (sun_path_offset : Int)⟩ = some none := by
  have h2 : intAsUsize (sun_path_offset : Int) = sun_path_offset := by
    apply intAsUsize_of_nonneg <;> norm_num [sun_path_offset]
  refine ⟨rfl, ?_, ?_⟩ <;>
    simp [SocketAddr.is_unnamed, SocketAddr.as_pathname, SocketAddr.address, h2]

/-- C5: a nonzero declared length whose family tag is not `AF_UNIX`
makes `from_parts` fail with `InvalidInput`. -/
theorem C5_family_mismatch (a : netc.sockaddr_un) (len : Int)
    (hlen : len ≠ 0) (hfam : a.sun_family ≠ AF_UNIX) :
    SocketAddr.from_parts a len = Except.error ErrorKind.InvalidInput := by
  simp [SocketAddr.from_parts, hlen, hfam]

/-- C5 witness: family tag 2, declared length 110. -/
theorem C5_family_mismatch_witness :
    SocketAddr.from_parts ⟨2, List.replicate 108 0⟩ 110 =
      Except.error ErrorKind.InvalidInput :=
  C5_family_mismatch ⟨2, List.replicate 108 0⟩ 110 (by decide) (by decide)

/-- C7: the claim (and the spec) say a `Pathname` address whose bytes
are not valid platform text makes decoding fail with an error and that
no operation of this layer panics; the code instead reaches
`to_str().unwrap()` inside `address()` and panics.  At this concrete
address — family `AF_UNIX`, declared length 4, path bytes `[255, 0]`
(properly nul-terminated but not UTF-8) — `from_parts` accepts the
buffer and `address()` panics (modelled as `none`) rather than
returning an error value. -/
theorem C7_invalid_text_panics :
    SocketAddr.from_parts ⟨AF_UNIX, 255 :: List.replicate 107 0⟩ 4 =
      Except.ok ⟨⟨AF_UNIX, 255 :: List.replicate 107 0⟩, 4⟩ ∧
    isValidUtf8 (((255 :: List.replicate 107 0).take 2).dropLast) = false ∧
    SocketAddr.address ⟨⟨AF_UNIX, 255 :: List.replicate 107 0⟩, 4⟩ = none ∧
    SocketAddr.as_pathname ⟨⟨AF_UNIX, 255 :: List.replicate 107 0⟩, 4⟩ = none :=
  ⟨rfl, by decide, by decide, by decide⟩

/-- C8 counterexample: `from_parts` never checks the declared length
against the buffer capacity, so with a valid family tag and declared
length 500 it produces a `SocketAddr` whose stored length exceeds
`size_of::<sockaddr_un>()` = 110. -/
theorem C8_capacity_cex :
    SocketAddr.from_parts ⟨AF_UNIX, List.replicate 108 0⟩ 500 =
      Except.ok ⟨⟨AF_UNIX, List.replicate 108 0⟩, 500⟩ ∧
    ¬ ((⟨⟨AF_UNIX, List.replicate 108 0⟩, 500⟩ : SocketAddr).len ≤
        (sizeof_sockaddr_un : Int)) :=
  ⟨rfl, by decide⟩

/-- C8 (amended): provided the declared length handed to the
constructor does not exceed `size_of::<sockaddr_un>()` — which the
native calls guarantee for the lengths they report, since the in/out
length starts at the buffer size — every `SocketAddr` produced by
`from_parts`, `new` or `accept` has stored length at most the buffer
capacity; `from_parts` itself performs no check and propagates an
oversized declared length. -/
theorem C8_len_invariant (a : netc.sockaddr_un) (len : Int)
    (hcap : len ≤ (sizeof_sockaddr_un : Int)) :
    (∀ s, SocketAddr.from_parts a len = Except.ok s →
      s.len ≤ (sizeof_sockaddr_un : Int)) ∧
    (∀ s, SocketAddr.new a len = Except.ok s →
      s.len ≤ (sizeof_sockaddr_un : Int)) ∧
    (∀ sock stream addrOut,
      UnixListener.accept (Except.ok (sock, a, len)) = Except.ok (stream, addrOut) →
      addrOut.len ≤ (sizeof_sockaddr_un : Int)) := by
  have key : ∀ s, SocketAddr.from_parts a len = Except.ok s →
      s.len ≤ (sizeof_sockaddr_un : Int) := by
    intro s hs
    unfold SocketAddr.from_parts at hs
    split at hs
    · cases hs
      norm_num [sun_path_offset, sizeof_sockaddr_un]
    · split at hs
      · cases hs
      · cases hs
        exact hcap
  refine ⟨key, key, ?_⟩
  intro sock stream addrOut hacc
  rcases hfp : SocketAddr.from_parts a len with e | addr2 <;>
    simp [UnixListener.accept, hfp] at hacc
  exact hacc.2 ▸ key addr2 hfp

/-- C8 witness: declared length 0 is canonicalised to the path-field
offset, which is within capacity. -/
theorem C8_len_invariant_witness :
    (⟨⟨AF_UNIX, List.replicate 108 0⟩, (sun_path_offset : Int)⟩ : SocketAddr).len ≤
      (sizeof_sockaddr_un : Int) :=
  (C8_len_invariant ⟨AF_UNIX, List.replicate 108 0⟩ 0 (by decide)).1
    ⟨⟨AF_UNIX, List.replicate 108 0⟩, (sun_path_offset : Int)⟩ rfl

/-- C9: at every step, `Incoming::next` returns `Some` of the result of
calling `accept` on the borrowed listener (never `None`); after a failed
accept the following step calls `accept` again; and `size_hint` reports
an unknown upper bound `(usize::MAX, None)`. -/
theorem C9_incoming_next
    (accepts : Nat → Except ErrorKind (Nat × netc.sockaddr_un × Int))
    (step : Nat) :
    (Incoming.next accepts step).1 =
      some ((UnixListener.accept (accepts step)).map Prod.fst) ∧
    (Incoming.next accepts step).1 ≠ none ∧
    (Incoming.next accepts step).2 = step + 1 ∧
    (∀ e, UnixListener.accept (accepts step) = Except.error e →
      (Incoming.next accepts (Incoming.next accepts step).2).1 =
        some ((UnixListener.accept (accepts (step + 1))).map Prod.fst)) ∧
    Incoming.size_hint = (usize_max, none) :=
  ⟨rfl, by simp [Incoming.next], rfl, fun _ _ => rfl, rfl⟩

/-- C9 witness: with every external accept failing, the step after a
failure still yields `Some` of a fresh accept outcome. -/
theorem C9_incoming_next_witness :
    (Incoming.next (fun _ => Except.error ErrorKind.Other)
        (Incoming.next (fun _ => Except.error ErrorKind.Other) 0).2).1 =
      some ((UnixListener.accept (Except.error ErrorKind.Other)).map Prod.fst) :=
  (C9_incoming_next (fun _ => Except.error ErrorKind.Other) 0).2.2.2.1
    ErrorKind.Other rfl

/-- C10: setting a read or write timeout to `Some` of the zero duration
fails with `InvalidInput`, while `None` (block indefinitely) succeeds. -/
theorem C10_zero_timeout_rejected :
    UnixStream.set_read_timeout (some ⟨0, 0⟩) = Except.error ErrorKind.InvalidInput ∧
    UnixStream.set_write_timeout (some ⟨0, 0⟩) = Except.error ErrorKind.InvalidInput ∧
    UnixStream.set_read_timeout none = Except.ok () ∧
    UnixStream.set_write_timeout none = Except.ok () :=
  ⟨rfl, rfl, rfl, rfl⟩

/-- C1 counterexample: the empty path is representable within the
capacity bound and encodes successfully (declared length 2, the bare
path-field offset), but decoding the encoder's output classifies it as
`Unnamed`: `as_pathname` returns `None`, not the original path. -/
theorem C1_roundtrip_cex :
    sockaddr_un (some []) = Except.ok (⟨AF_UNIX, List.replicate 108 0⟩, (2 : Int)) ∧
    SocketAddr.from_parts ⟨AF_UNIX, List.replicate 108 0⟩ 2 =
      Except.ok ⟨⟨AF_UNIX, List.replicate 108 0⟩, 2⟩ ∧
    SocketAddr.as_pathname ⟨⟨AF_UNIX, List.replicate 108 0⟩, 2⟩ = some none ∧
    SocketAddr.is_unnamed ⟨⟨AF_UNIX, List.replicate 108 0⟩, 2⟩ = some true :=
  ⟨rfl, rfl, by decide, by decide⟩

end RsStdNet

namespace RsStdNet

/-- C2: encoding fails exactly when the path is not representable as
UTF-8 text (`none`), contains an embedded null byte, or has byte length
at least the path-field capacity (108); every failure is `InvalidInput`,
and every other path encodes successfully. -/
theorem C2_encode_failure_iff (p : Option (List Nat)) :
    ((∃ e, sockaddr_un p = Except.error e) ↔
      (p = none ∨ ∃ bs, p = some bs ∧ ((0 : Nat) ∈ bs ∨ sun_path_len ≤ bs.length))) ∧
    (∀ e, sockaddr_un p = Except.error e → e = ErrorKind.InvalidInput) ∧
    (∀ bs, p = some bs → (0 : Nat) ∉ bs → bs.length < sun_path_len →
      ∃ r, sockaddr_un p = Except.ok r) := by
  rcases p with _ | bs
  · refine ⟨by simp [sockaddr_un], ?_, ?_⟩
    · intro e he
      simp [sockaddr_un] at he
      exact he.symm
    · intro bs h
      cases h
  · by_cases hm : (0 : Nat) ∈ bs
    · refine ⟨by simp [sockaddr_un, hm], ?_, ?_⟩
      · intro e he
        simp [sockaddr_un, hm] at he
        exact he.symm
      · intro bs2 hbs2 hc hl
        injection hbs2 with h
        subst h
        exact absurd hm hc
    · by_cases h2 : sun_path_len ≤ bs.length
      · refine ⟨by simp [sockaddr_un, hm, h2], ?_, ?_⟩
        · intro e he
          simp [sockaddr_un, hm, h2] at he
          exact he.symm
        · intro bs2 hbs2 hc hl
          injection hbs2 with h
          subst h
          exact absurd h2 (not_le.mpr hl)
      · refine ⟨by simp [sockaddr_un, hm, h2], ?_, ?_⟩
        · intro e he
          simp [sockaddr_un, hm, h2] at he
        · intro bs2 hbs2 hc hl
          rcases hr : sockaddr_un (some bs) with e | r
          · simp [sockaddr_un, hm, h2] at hr
          · exact ⟨r, rfl⟩

/-- C2 witness: the path consisting of a single null byte fails with
`InvalidInput`, and the one-byte path `/` (byte 47) encodes. -/
theorem C2_encode_failure_iff_witness :
    ErrorKind.InvalidInput = ErrorKind.InvalidInput ∧
    (∃ r, sockaddr_un (some [47]) = Except.ok r) :=
  ⟨(C2_encode_failure_iff (some [0])).2.1 ErrorKind.InvalidInput rfl,
   (C2_encode_failure_iff (some [47])).2.2 [47] rfl (by decide) (by decide)⟩

/-- C3: for every successful encode, the declared length equals the
path-field offset plus the path byte length, plus exactly one extra
byte when the path is nonempty and its first byte is nonzero. -/
theorem C3_declared_length (bytes : List Nat) (addr : netc.sockaddr_un) (len : Int)
    (henc : sockaddr_un (some bytes) = Except.ok (addr, len)) :
    len = ((sun_path_offset + bytes.length +
      (if bytes ≠ [] ∧ bytes.head? ≠ some 0 then 1 else 0) : Nat) : Int) := by
  by_cases hm : (0 : Nat) ∈ bytes
  · simp [sockaddr_un, hm] at henc
  · by_cases h2 : sun_path_len ≤ bytes.length
    · simp [sockaddr_un, hm, h2] at henc
    · cases bytes with
      | nil =>
        simp [sockaddr_un, sun_path_len, sun_path_offset] at henc
        obtain ⟨h1, hl⟩ := henc
        simp [sun_path_offset]
        omega
      | cons b t =>
        cases b with
        | zero => exact absurd (List.mem_cons_self 0 t) hm
        | succ b =>
          have hmt : (0 : Nat) ∉ t := fun h => hm (List.mem_cons_of_mem _ h)
          simp [sun_path_len] at h2
          have hlt : ¬ (107 : Nat) ≤ t.length := by omega
          simp [sockaddr_un, sun_path_len, sun_path_offset, hmt, hlt] at henc
          obtain ⟨h1, hl⟩ := henc
          simp [sun_path_offset]
          omega

/-- C3 witness: the one-byte path `/` gets declared length
2 + 1 + 1 = 4. -/
theorem C3_declared_length_witness :
    (4 : Int) = ((sun_path_offset + [47].length +
      (if ([47] : List Nat) ≠ [] ∧ ([47] : List Nat).head? ≠ some 0
        then 1 else 0) : Nat) : Int) :=
  C3_declared_length [47] ⟨AF_UNIX, [47] ++ List.replicate 107 0⟩ 4 rfl

/-- C6: for a successfully decoded address with a valid family tag (and
an in-range declared length), classification yields `Unnamed` exactly
when the implied path byte count is zero or the first path byte is zero
(the target is not linux/android, so the zero-leading-byte ambiguity
applies); only otherwise does any produced classification come out
`Pathname` or `Abstract`. -/
theorem C6_classification (a : netc.sockaddr_un) (len : Int) (s : SocketAddr)
    (hwf : a.sun_path.length = 108)
    (hfam : a.sun_family = AF_UNIX)
    (hlo : ((sun_path_offset : Nat) : Int) ≤ len)
    (hhi : len ≤ ((sizeof_sockaddr_un : Nat) : Int))
    (hparts : SocketAddr.from_parts a len = Except.ok s) :
    (((s.len - (sun_path_offset : Int)).toNat = 0 ∨ s.addr.sun_path.headD 0 = 0) →
      SocketAddr.address s = some AddressKind.Unnamed) ∧
    ((s.len - (sun_path_offset : Int)).toNat ≠ 0 → s.addr.sun_path.headD 0 ≠ 0 →
      ∀ k, SocketAddr.address s = some k →
        (∃ bs, k = AddressKind.Pathname bs) ∨ (∃ bs, k = AddressKind.Abstract bs)) := by
  simp only [sun_path_offset, sizeof_sockaddr_un] at hlo hhi ⊢
  have hne : len ≠ 0 := by omega
  have hs : s = ⟨a, len⟩ := by
    simp [SocketAddr.from_parts, hne, hfam] at hparts
    exact hparts.symm
  subst hs
  have hsl : ({ addr := a, len := len } : SocketAddr).len = len := rfl
  have hsa : ({ addr := a, len := len } : SocketAddr).addr = a := rfl
  have hu : intAsUsize len = len.toNat :=
    intAsUsize_of_nonneg len (by omega) (by omega)
  have hnl : ¬ len.toNat < sun_path_offset := by
    simp only [sun_path_offset]
    omega
  constructor
  · intro h
    rw [hsl, hsa] at h
    have hcond : ((len.toNat - sun_path_offset == 0) ||
        (!cfg_target_linux_or_android && (a.sun_path.headD 0 == 0))) = true := by
      simp only [cfg_target_linux_or_android, Bool.not_false, Bool.true_and,
        Bool.or_eq_true, beq_iff_eq, sun_path_offset]
      rcases h with h | h
      · left
        omega
      · right
        exact h
    unfold SocketAddr.address
    simp only [hu, hsl, hsa]
    rw [if_neg hnl, if_pos hcond]
  · intro h1 h2 k hk
    rw [hsl] at h1
    rw [hsa] at h2
    have hcond : ((len.toNat - sun_path_offset == 0) ||
        (!cfg_target_linux_or_android && (a.sun_path.headD 0 == 0))) = false := by
      simp only [cfg_target_linux_or_android, Bool.not_false, Bool.true_and,
        Bool.or_eq_false_iff, beq_eq_false_iff_ne, ne_eq, sun_path_offset]
      constructor
      · omega
      · exact h2
    have hb2 : (a.sun_path.headD 0 == 0) = false := by
      simpa using h2
    unfold SocketAddr.address at hk
    simp only [hu, hsl, hsa] at hk
    rw [if_neg hnl] at hk
    rw [hcond] at hk
    simp only [Bool.false_eq_true, if_false] at hk
    rw [hb2] at hk
    simp only [Bool.false_eq_true, if_false] at hk
    rw [if_pos (show len.toNat - sun_path_offset ≤ a.sun_path.length by
      rw [hwf]
      simp only [sun_path_offset]
      omega)] at hk
    rcases hc : cstrToStr (a.sun_path.take (len.toNat - sun_path_offset)) with _ | content
    · rw [hc] at hk
      cases hk
    · rw [hc] at hk
      injection hk with h
      exact Or.inl ⟨content, h.symm⟩

/-- C6 witness: family `AF_UNIX`, path bytes `[97, 0, ...]`, declared
length 4: count 2, first byte nonzero, classified `Pathname`. -/
theorem C6_classification_witness :
    SocketAddr.address ⟨⟨AF_UNIX, 97 :: List.replicate 107 0⟩, 4⟩ =
      some (AddressKind.Pathname [97]) ∧
    ((∃ bs, AddressKind.Pathname [97] = AddressKind.Pathname bs) ∨
      (∃ bs, AddressKind.Pathname [97] = AddressKind.Abstract bs)) :=
  ⟨by decide,
   (C6_classification ⟨AF_UNIX, 97 :: List.replicate 107 0⟩ 4
      ⟨⟨AF_UNIX, 97 :: List.replicate 107 0⟩, 4⟩
      (by decide) (by decide) (by decide) (by decide) rfl).2
     (by decide) (by decide) (AddressKind.Pathname [97]) (by decide)⟩

/-- C1 (amended): for any nonempty path representable within the
capacity bound, decoding the encoded form yields `Pathname` equal to
the original path — `as_pathname` on the `SocketAddr` built from the
encoder's output returns the original path.  (The empty path also
encodes successfully but decodes to `Unnamed` instead.) -/
theorem C1_roundtrip_nonempty (bytes : List Nat) (hne : bytes ≠ [])
    (hutf : isValidUtf8 bytes = true)
    (addr : netc.sockaddr_un) (len : Int)
    (henc : sockaddr_un (some bytes) = Except.ok (addr, len)) :
    SocketAddr.from_parts addr len = Except.ok ⟨addr, len⟩ ∧
    SocketAddr.as_pathname ⟨addr, len⟩ = some (some bytes) := by
  rcases bytes with _ | ⟨b, t⟩
  · exact absurd rfl hne
  by_cases hm : (0 : Nat) ∈ b :: t
  · simp [sockaddr_un, hm] at henc
  by_cases hcap : sun_path_len ≤ (b :: t).length
  · rw [List.length_cons] at hcap
    simp [sockaddr_un, hm, hcap] at henc
  cases b with
  | zero => exact absurd (List.mem_cons_self 0 t) hm
  | succ b =>
    have hmt : (0 : Nat) ∉ t := fun h => hm (List.mem_cons_of_mem _ h)
    simp [sun_path_len] at hcap
    have hlt : ¬ (107 : Nat) ≤ t.length := by omega
    simp [sockaddr_un, sun_path_len, sun_path_offset, hmt, hlt] at henc
    obtain ⟨ha, hl⟩ := henc
    subst ha
    have hu : intAsUsize len = len.toNat :=
      intAsUsize_of_nonneg len (by omega) (by omega)
    have hnl : ¬ len.toNat < sun_path_offset := by
      simp only [sun_path_offset]
      omega
    have hcond : ((len.toNat - sun_path_offset == 0) ||
        (!cfg_target_linux_or_android &&
          (((Nat.succ b) :: (t ++ List.replicate (107 - t.length) 0)).headD 0 == 0))) = false := by
      simp only [cfg_target_linux_or_android, Bool.not_false, Bool.true_and,
        Bool.or_eq_false_iff, beq_eq_false_iff_ne, ne_eq, sun_path_offset,
        List.headD_cons]
      constructor
      · omega
      · simp
    have hb2 : ((((Nat.succ b) :: (t ++ List.replicate (107 - t.length) 0)).headD 0) == 0) = false := by
      simp
    have hbound : len.toNat - sun_path_offset ≤
        ((Nat.succ b) :: (t ++ List.replicate (107 - t.length) 0)).length := by
      simp only [sun_path_offset, List.length_cons, List.length_append, List.length_replicate]
      omega
    have htake : ((Nat.succ b) :: (t ++ List.replicate (107 - t.length) 0)).take
        (len.toNat - sun_path_offset) = ((Nat.succ b) :: t) ++ [0] := by
      have h1 : len.toNat - sun_path_offset = t.length + 2 := by
        simp only [sun_path_offset]
        omega
      rw [h1]
      rw [List.take_succ_cons]
      rw [List.take_append_eq_append_take]
      rw [List.take_of_length_le (by omega : t.length ≤ t.length + 1)]
      rw [List.take_replicate]
      have h3 : min (t.length + 1 - t.length) (107 - t.length) = 1 := by omega
      rw [h3]
      simp
    have hdl : (((Nat.succ b) :: t) ++ [0]).dropLast = (Nat.succ b) :: t :=
      List.dropLast_concat
    have haddr : SocketAddr.address
        ⟨⟨AF_UNIX, (Nat.succ b) :: (t ++ List.replicate (107 - t.length) 0)⟩, len⟩ =
        some (AddressKind.Pathname (Nat.succ b :: t)) := by
      unfold SocketAddr.address
      simp only [hu]
      rw [if_neg hnl]
      rw [hcond]
      simp only [Bool.false_eq_true, if_false]
      rw [hb2]
      simp only [Bool.false_eq_true, if_false]
      rw [if_pos hbound]
      rw [htake]
      unfold cstrToStr
      rw [hdl]
      rw [if_pos hutf]
    constructor
    · unfold SocketAddr.from_parts
      split
      · rename_i h0
        exact absurd h0 (by omega)
      · split
        · rename_i h0 h1
          simp at h1
        · rfl
    · simp [SocketAddr.as_pathname, haddr]

/-- C1 witness: the one-byte path `/` round-trips through encode,
`from_parts` and `as_pathname`. -/
theorem C1_roundtrip_nonempty_witness :
    SocketAddr.from_parts ⟨AF_UNIX, [47] ++ List.replicate 107 0⟩ 4 =
      Except.ok ⟨⟨AF_UNIX, [47] ++ List.replicate 107 0⟩, 4⟩ ∧
    SocketAddr.as_pathname ⟨⟨AF_UNIX, [47] ++ List.replicate 107 0⟩, 4⟩ =
      some (some [47]) :=
  C1_roundtrip_nonempty [47] (by decide) (by decide)
    ⟨AF_UNIX, [47] ++ List.replicate 107 0⟩ 4 rfl

end RsStdNet
